import Mathlib

/-!
Shallow embedding of the infinitychat Channel Mesh Membership Manager
(package `infchat`): descriptor normalizer, membership state with
join/leave, message pump, post, rejoin/announce cycle and status reporter.
Go strings are modelled as `List Char`; Go maps by their key sets; the
overlay/discovery collaborator by explicit outcome parameters.
-/

namespace InfChat

/-- Go strings, modelled as lists of characters. -/
abbrev GoStr := List Char

/-- `ChanPrefix = "/infinitychat/v0.1/channel/"` from descriptor.go. -/
def chanPre : GoStr := "/infinitychat/v0.1/channel/".toList

/-- `DMPrefix = "/infinity/v0.1/dm/"` from descriptor.go. -/
def dmPre : GoStr := "/infinity/v0.1/dm/".toList

/-- `strings.HasPrefix(s, pre)` from the Go standard library. -/
def hasPre (s pre : GoStr) : Bool := pre.isPrefixOf s

/-- `ExpandDescriptor` from descriptor.go: converts a short-form descriptor
(`#name`, `@name`) to the full wire form; full forms (starting with `/`)
pass through unchanged; anything else is an error. -/
def ExpandDescriptor (shortForm : GoStr) : Except String GoStr :=
  if hasPre shortForm ['/'] then .ok shortForm
  else if hasPre shortForm ['#'] then .ok (chanPre ++ shortForm.drop 1)
  else if hasPre shortForm ['@'] then .ok (dmPre ++ shortForm.drop 1)
  else .error "unknown descriptor type"

/-- `DescriptorForDisplay` from descriptor.go: inverse mapping, returning
unrecognized input unchanged. -/
def DescriptorForDisplay (fullForm : GoStr) : GoStr :=
  if hasPre fullForm ['#'] || hasPre fullForm ['@'] then fullForm
  else if hasPre fullForm chanPre then '#' :: fullForm.drop chanPre.length
  else if hasPre fullForm dmPre then '@' :: fullForm.drop dmPre.length
  else fullForm

lemma hasPre_chanPre_append (s : GoStr) : hasPre (chanPre ++ s) ['/'] = true := by
  simp [hasPre, chanPre, List.isPrefixOf]

lemma hasPre_dmPre_append (s : GoStr) : hasPre (dmPre ++ s) ['/'] = true := by
  simp [hasPre, dmPre, List.isPrefixOf]

/-- A successful `ExpandDescriptor` result always starts with `/`. -/
lemma expand_ok_slash (x y : GoStr) (h : ExpandDescriptor x = .ok y) :
    hasPre y ['/'] = true := by
  unfold ExpandDescriptor at h
  split at h
  · cases h; assumption
  · split at h
    · cases h; exact hasPre_chanPre_append _
    · split at h
      · cases h; exact hasPre_dmPre_append _
      · cases h

/-! ## Events and traces

Each membership operation is embedded as a function that, besides its
result and the updated state, returns the sequence of lock, overlay-call
and goroutine-spawn events it performs, in source order. -/

/-- One observable step of a membership operation: mutex transitions,
overlay/network calls, connection-manager bookkeeping, goroutine spawns
and log lines. -/
inductive Ev
  | lock | unlock
  | netJoinTopic | netSubscribe | netPublish | netCloseTopic
  | netAdvertise | netFindPeers | netConnect
  | cmProtect | cmUnprotect | subCancel | listPeers
  | spawnPump | spawnAnnounce | spawnRejoin | spawnPublish
  | logLine
  deriving DecidableEq

/-- Network calls in the sense of the lock discipline: topic join,
subscribe, close, publish, discovery (advertise, find-peers) and dial. -/
def netEv : Ev → Bool
  | .netJoinTopic | .netSubscribe | .netPublish | .netCloseTopic
  | .netAdvertise | .netFindPeers | .netConnect => true
  | _ => false

/-- Scan a trace with the current lock depth, flagging any network event
performed while the lock is held. -/
def lockedNet : Nat → List Ev → Bool
  | _, [] => false
  | d, .lock :: r => lockedNet (d + 1) r
  | d, .unlock :: r => lockedNet (d - 1) r
  | d, e :: r => (netEv e && decide (0 < d)) || lockedNet d r

/-- A trace performs a network call while holding the membership lock. -/
def heldAcrossNet (tr : List Ev) : Bool := lockedNet 0 tr

/-! ## Membership state (node.go)

`topics` and `subs` are the key sets of the Go maps
`n.topics : map[string]*pubsub.Topic` and
`n.subs : map[string]*pubsub.Subscription`; `pumps` records one entry per
live `pullMessages` goroutine (spawned on subscribe, terminated by
`sub.Cancel`). -/

structure MemState where
  topics : List GoStr
  subs : List GoStr
  pumps : List GoStr
  deriving DecidableEq

/-- The state `NewNode` creates: empty maps, no pumps. -/
def emptyMemState : MemState := ⟨[], [], []⟩

/-- Outcomes of the overlay calls `PubsubProto.Join` and
`topic.Subscribe` during one `JoinChannel` execution. -/
structure JoinEnv where
  joinOk : Bool
  subOk : Bool

/-- Tail of `JoinChannel` after the topic lookup/creation: the `n.subs`
check, `topic.Subscribe`, the map stores and the goroutine spawns.
`tr0` is the trace accumulated so far. -/
def joinSub (env : JoinEnv) (st : MemState) (descr : GoStr) (tr0 : List Ev) :
    Except String Unit × MemState × List Ev :=
  if descr ∈ st.subs then (.ok (), st, tr0 ++ [Ev.unlock])
  else if env.subOk then
    (.ok (), ⟨st.topics.insert descr, st.subs.insert descr, descr :: st.pumps⟩,
     tr0 ++ [Ev.netSubscribe, Ev.spawnPump, Ev.spawnAnnounce, Ev.spawnRejoin, Ev.unlock])
  else (.error "join: subscribe failed", st, tr0 ++ [Ev.netSubscribe, Ev.unlock])

/-- `JoinChannel` from channels.go: under the lock, look up or join the
topic, return early if already subscribed, otherwise subscribe, store
both map entries and spawn the pump, announce and rejoin goroutines. -/
def JoinChannel (env : JoinEnv) (st : MemState) (descr : GoStr) :
    Except String Unit × MemState × List Ev :=
  if descr ∈ st.topics then
    joinSub env st descr [Ev.lock]
  else if env.joinOk then
    joinSub env st descr [Ev.lock, Ev.netJoinTopic]
  else (.error "join failed", st, [Ev.lock, Ev.netJoinTopic, Ev.unlock])

/-- Outcomes of the overlay calls during one `LeaveChannel` execution:
the length of `topic.ListPeers()` (driving the `Unprotect` loop) and
whether `topic.Close()` succeeds. -/
structure LeaveEnv where
  topicPeers : Nat
  closeOk : Bool

/-- `LeaveChannel` from channels.go: under the lock, fail when the
descriptor has no record, unprotect the topic's current peers, cancel
the subscription, delete both map entries and close the topic (a close
error is returned but the record is removed regardless). -/
def LeaveChannel (env : LeaveEnv) (st : MemState) (descr : GoStr) :
    Except String Unit × MemState × List Ev :=
  if descr ∈ st.topics then
    let tr0 := [Ev.lock, Ev.listPeers] ++ List.replicate env.topicPeers Ev.cmUnprotect
    if descr ∈ st.subs then
      let st1 : MemState :=
        ⟨st.topics.erase descr, st.subs.erase descr, st.pumps.erase descr⟩
      if env.closeOk then
        (.ok (), st1, tr0 ++ [Ev.subCancel, Ev.netCloseTopic, Ev.unlock])
      else
        (.error "failed to leave", st1, tr0 ++ [Ev.subCancel, Ev.netCloseTopic, Ev.unlock])
    else (.error "not on the channel", st, tr0 ++ [Ev.unlock])
  else (.error "not on the channel", st, [Ev.lock, Ev.unlock])

/-- `IsJoined` from inspect.go: membership is the `n.subs` lookup. -/
def IsJoined (st : MemState) (chanDescr : GoStr) : Bool :=
  decide (chanDescr ∈ st.subs)

/-! ## Message pump (channels.go `pullMessages`) -/

/-- `Message` from node.go. -/
structure Message where
  Sender : GoStr
  Channel : GoStr
  Text : GoStr
  deriving DecidableEq

/-- One outcome of `sub.Next(n.nodeContext)`: a delivered message, the
`subscription cancelled` error, `context.Canceled`, or any other error
(which the loop logs and survives). -/
inductive Delivery
  | recv (sender : GoStr) (payload : GoStr)
  | errCancelled
  | errCtxCanceled
  | errOther
  deriving DecidableEq

/-- `pullMessages` from channels.go, applied to a finite run of `Next`
outcomes: terminate on cancellation, skip other errors, drop messages
from the local identity, forward the rest to the `messages` channel. -/
def pullMessages (selfID chan : GoStr) : List Delivery → List Message
  | [] => []
  | .errCancelled :: _ => []
  | .errCtxCanceled :: _ => []
  | .errOther :: rest => pullMessages selfID chan rest
  | .recv s d :: rest =>
    if s == selfID then pullMessages selfID chan rest
    else ⟨s, chan, d⟩ :: pullMessages selfID chan rest

/-- A `Next` outcome that terminates the pump loop. -/
def isTermErr : Delivery → Bool
  | .errCancelled => true
  | .errCtxCanceled => true
  | _ => false

/-- Modelled from the spec: the pump forwards exactly the non-self
deliveries that arrive before the subscription is cancelled. -/
def forwardSpec (selfID chan : GoStr) (ds : List Delivery) : List Message :=
  (ds.takeWhile fun d => !isTermErr d).filterMap fun d =>
    match d with
    | .recv s p => if s == selfID then none else some ⟨s, chan, p⟩
    | _ => none

/-! ## Post (channels.go) -/

/-- Overlay observations made by the goroutine `Post` spawns:
`len(topic.ListPeers())` and the outcome of `topic.Publish`. -/
structure PostEnv where
  topicPeers : Nat
  publishOk : Bool

/-- `Post` from channels.go. Returns the synchronous result, the trace of
the calling goroutine (which holds the lock in the channel branch), and
the trace of the spawned publish goroutine. -/
def Post (env : PostEnv) (st : MemState) (descriptor _msgText : GoStr) :
    Except String Unit × List Ev × List Ev :=
  if hasPre descriptor chanPre then
    if descriptor ∈ st.topics then
      (.ok (), [Ev.lock, Ev.spawnPublish, Ev.unlock],
       [Ev.listPeers] ++ (if env.topicPeers == 0 then [Ev.logLine] else []) ++
         [Ev.netPublish] ++ (if env.publishOk then [] else [Ev.logLine]))
    else (.error "not on the channel", [Ev.lock, Ev.unlock], [])
  else if hasPre descriptor dmPre then
    (.error "not implemented yet", [], [])
  else (.error "unknown descriptor type", [], [])

/-- Modelled from the spec: `Post`'s synchronous result as a function of
the descriptor's namespace and of membership alone. -/
def postSpecResult (joined : Bool) (d : GoStr) : Except String Unit :=
  if hasPre d chanPre then
    if joined then .ok () else .error "not on the channel"
  else if hasPre d dmPre then .error "not implemented yet"
  else .error "unknown descriptor type"

/-! ## Status reporter (inspect.go) -/

/-- `StatusData` from inspect.go. -/
structure StatusData where
  State : String
  ConnectedPeers : Nat
  KnownPeers : Nat
  PubsubTopics : Nat
  NAT : Bool
  deriving DecidableEq

/-- The values `Status` reads from the overlay host and the node
configuration: peer counts, topic count, NAT classification, the length
of `Cfg.Bootstrap` and `Cfg.ConnsLow`. -/
structure StatusEnv where
  connectedPeers : Nat
  knownPeers : Nat
  pubsubTopics : Nat
  natPrivate : Bool
  bootstrapLen : Nat
  connsLow : Int

/-- `Status` from inspect.go: snapshot the counts and derive the state
string by thresholding. -/
def Status (e : StatusEnv) : StatusData :=
  let noBootstrap := e.bootstrapLen == 0
  let state :=
    if e.connectedPeers == 0 then "Alone."
    else if decide (e.connectedPeers ≤ e.bootstrapLen) && !noBootstrap then "Bootstrapping..."
    else if decide ((e.connectedPeers : Int) < e.connsLow) then "Active."
    else "Ready."
  ⟨state, e.connectedPeers, e.knownPeers, e.pubsubTopics, e.natPrivate⟩

/-- The state label the spec calls "isolated". -/
def isolatedLabel : String := "Alone."

/-- The state label the spec calls "bootstrapping". -/
def bootstrappingLabel : String := "Bootstrapping..."

/-- The state label the spec calls "active". -/
def activeLabel : String := "Active."

/-- The state label the spec calls "ready". -/
def readyLabel : String := "Ready."

/-- Modelled from the spec: the thresholding order of the status labels
(zero → isolated; ≤ bootstrap count with non-empty bootstrap →
bootstrapping; below low-water mark → active; otherwise ready). -/
def stateLabelSpec (connected bootstrapLen : Nat) (connsLow : Int) : String :=
  if connected = 0 then isolatedLabel
  else if connected ≤ bootstrapLen ∧ bootstrapLen ≠ 0 then bootstrappingLabel
  else if (connected : Int) < connsLow then activeLabel
  else readyLabel

/-! ## Rejoin / Announce cycle (channels.go) -/

/-- One entry of the `FindPeers` result stream, together with the outcome
of the `Host.Connect` attempt on it. -/
structure PeerInfo where
  pid : GoStr
  connectOk : Bool
  deriving DecidableEq

/-- The peer loop of `RejoinChannel`: skip self, skip failed dials, and
protect (tagging with `tag`) until `protectedCount` reaches 10. Returns
the `Protect` calls made, the final `protectedCount` and the trace. -/
def rejoinLoop (selfID tag : GoStr) : List PeerInfo → Nat → List (GoStr × GoStr) × Nat × List Ev
  | [], cnt => ([], cnt, [])
  | p :: rest, cnt =>
    if p.pid == selfID then rejoinLoop selfID tag rest cnt
    else if !p.connectOk then
      let r := rejoinLoop selfID tag rest cnt
      (r.1, r.2.1, Ev.netConnect :: r.2.2)
    else if 10 ≤ cnt then
      let r := rejoinLoop selfID tag rest cnt
      (r.1, r.2.1, Ev.netConnect :: r.2.2)
    else
      let r := rejoinLoop selfID tag rest (cnt + 1)
      ((p.pid, tag) :: r.1, r.2.1, Ev.netConnect :: Ev.cmProtect :: r.2.2)

/-- `RejoinChannel` from channels.go: discover up to 100 peers for the
channel, dial each, protect at most 10 of the successful ones under the
descriptor tag, and fail when nothing was protected. `find` is the
outcome of `Discover.FindPeers`. Returns the result, the list of
`Protect(peerID, tag)` calls and the trace. -/
def RejoinChannel (selfID : GoStr) (find : Except String (List PeerInfo)) (desc : GoStr) :
    Except String Unit × List (GoStr × GoStr) × List Ev :=
  match find with
  | .error _ => (.error "join: find peers failed", [], [Ev.netFindPeers])
  | .ok pis =>
    let r := rejoinLoop selfID desc pis 0
    if r.2.1 == 0 then
      (.error "join: failed to connect to any peers for the channel", r.1,
       Ev.netFindPeers :: r.2.2)
    else (.ok (), r.1, Ev.netFindPeers :: r.2.2)

/-- `AnnounceChannel` from channels.go: one `Advertise` call, its error
returned as-is. -/
def AnnounceChannel (advertiseOk : Bool) (_desc : GoStr) : Except String Unit × List Ev :=
  (if advertiseOk then .ok () else .error "advertise failed", [Ev.netAdvertise])

/-- `RejoinAll` from channels.go: snapshot the topic list under the lock,
release it, then run `RejoinChannel` per descriptor. -/
def RejoinAll (selfID : GoStr) (find : GoStr → Except String (List PeerInfo))
    (st : MemState) : Except String Unit × List Ev :=
  (.ok (), [Ev.lock, Ev.unlock] ++
    (st.topics.map fun d => (RejoinChannel selfID (find d) d).2.2).flatten)

/-- `AnnounceAll` from channels.go: snapshot the topic list under the
lock, release it, then run `AnnounceChannel` per descriptor. -/
def AnnounceAll (advertiseOk : GoStr → Bool) (st : MemState) :
    Except String Unit × List Ev :=
  (.ok (), [Ev.lock, Ev.unlock] ++
    (st.topics.map fun d => (AnnounceChannel (advertiseOk d) d).2).flatten)

/-! ## Concrete descriptors used by witnesses -/

/-- The expanded form of `#general`. -/
def chanGeneral : GoStr := chanPre ++ "general".toList

/-- A membership state holding exactly the channel `#general`. -/
def stOne : MemState := ⟨[chanGeneral], [chanGeneral], [chanGeneral]⟩

/-! ## Claim theorems -/

/-- C7: `ExpandDescriptor` is idempotent: whenever it succeeds, applying
it again to the result succeeds and returns the same string. -/
theorem c7_expandDescriptor_idempotent (x y : GoStr)
    (h : ExpandDescriptor x = .ok y) : ExpandDescriptor y = .ok y := by
  have hs := expand_ok_slash x y h
  unfold ExpandDescriptor
  simp [hs]

/-- C7 witness: idempotence at the concrete short form `#general`. -/
theorem c7_witness :
    ExpandDescriptor (chanPre ++ "general".toList) =
      .ok (chanPre ++ "general".toList) :=
  c7_expandDescriptor_idempotent "#general".toList (chanPre ++ "general".toList) rfl

/-- C6: `Status` derives its state label by thresholding in order: zero
connected peers is the isolated label; otherwise at most the bootstrap
count with non-empty bootstrap is the bootstrapping label; otherwise
below the low-water mark is the active label; otherwise the ready
label. -/
theorem c6_status_label_thresholds (e : StatusEnv) :
    (Status e).State = stateLabelSpec e.connectedPeers e.bootstrapLen e.connsLow := by
  simp only [Status, stateLabelSpec, isolatedLabel, bootstrappingLabel,
    activeLabel, readyLabel]
  by_cases h0 : e.connectedPeers = 0
  · simp [h0]
  · by_cases h1 : e.connectedPeers ≤ e.bootstrapLen ∧ e.bootstrapLen ≠ 0
    · simp [h0, h1, h1.1, h1.2]
    · by_cases h2 : (e.connectedPeers : Int) < e.connsLow
      · simp [h0, h1, h2]
      · simp [h0, h1, h2]

/-- C5: `Post`'s synchronous result is a function of the descriptor's
namespace and membership alone: channel namespace without a record gives
not-joined, with a record gives success; DM namespace gives
not-implemented; anything else gives invalid-descriptor. -/
theorem c5_post_result_by_namespace_and_membership
    (env : PostEnv) (st : MemState) (d m : GoStr) :
    (Post env st d m).1 = postSpecResult (decide (d ∈ st.topics)) d := by
  unfold Post postSpecResult
  by_cases hc : hasPre d chanPre = true
  · by_cases hm : d ∈ st.topics
    · simp [hc, hm]
    · simp [hc, hm]
  · by_cases hd : hasPre d dmPre = true
    · simp [hc, hd]
    · simp [hc, hd]

/-- C10: `Post` on a channel descriptor with a membership record returns
success synchronously for every peer count and publish outcome; the
publish runs in the spawned goroutine, not on the caller's path, and a
publish failure only produces a log line there. -/
theorem c10_post_async_success (env : PostEnv) (st : MemState) (d m : GoStr)
    (hc : hasPre d chanPre = true) (hm : d ∈ st.topics) :
    (Post env st d m).1 = .ok () ∧
    Ev.netPublish ∈ (Post env st d m).2.2 ∧
    Ev.netPublish ∉ (Post env st d m).2.1 ∧
    (env.publishOk = false → Ev.logLine ∈ (Post env st d m).2.2) := by
  unfold Post
  simp [hc, hm]
  intro hp
  simp [hp]

/-- C10 witness: posting to the joined channel `#general` with zero
peers and a failing publish still returns success. -/
theorem c10_witness :
    (Post ⟨0, false⟩ stOne chanGeneral []).1 = .ok () ∧
    Ev.netPublish ∈ (Post ⟨0, false⟩ stOne chanGeneral []).2.2 ∧
    Ev.netPublish ∉ (Post ⟨0, false⟩ stOne chanGeneral []).2.1 ∧
    ((⟨0, false⟩ : PostEnv).publishOk = false →
      Ev.logLine ∈ (Post ⟨0, false⟩ stOne chanGeneral []).2.2) :=
  c10_post_async_success ⟨0, false⟩ stOne chanGeneral [] rfl (by simp [stOne])

/-- C4: the message pump never forwards a message whose sender is the
local identity, and it forwards exactly the non-self deliveries that
arrive before the subscription is cancelled. -/
theorem c4_pump_no_self_echo (selfID chan : GoStr) (ds : List Delivery) :
    ((pullMessages selfID chan ds).all fun msg => msg.Sender != selfID) = true ∧
    pullMessages selfID chan ds = forwardSpec selfID chan ds := by
  induction ds with
  | nil => simp [pullMessages, forwardSpec]
  | cons d rest ih =>
    cases d with
    | recv s p =>
      by_cases hs : s = selfID
      · simpa [pullMessages, forwardSpec, isTermErr, hs] using ih
      · simp [pullMessages, forwardSpec, isTermErr, hs] at ih ⊢
        tauto
    | errCancelled => simp [pullMessages, forwardSpec, isTermErr]
    | errCtxCanceled => simp [pullMessages, forwardSpec, isTermErr]
    | errOther => simpa [pullMessages, forwardSpec, isTermErr] using ih

/-- The protect loop never makes more than `10 - cnt` further `Protect`
calls when entered with `protectedCount = cnt`. -/
lemma rejoinLoop_length_le (selfID tag : GoStr) (l : List PeerInfo) :
    ∀ cnt, (rejoinLoop selfID tag l cnt).1.length ≤ 10 - cnt := by
  induction l with
  | nil => intro cnt; simp [rejoinLoop]
  | cons p rest ih =>
    intro cnt
    unfold rejoinLoop
    by_cases h1 : (p.pid == selfID) = true
    · simpa [h1] using ih cnt
    · by_cases h2 : p.connectOk = true
      · by_cases h3 : 10 ≤ cnt
        · simpa [h1, h2, h3] using ih cnt
        · have := ih (cnt + 1)
          simp [h1, h2, h3]
          omega
      · simpa [h1, h2] using ih cnt

/-- Every `Protect` call made by the protect loop carries `tag`. -/
lemma rejoinLoop_tags (selfID tag : GoStr) (l : List PeerInfo) :
    ∀ cnt, ((rejoinLoop selfID tag l cnt).1.all fun pr => pr.2 == tag) = true := by
  induction l with
  | nil => intro cnt; simp [rejoinLoop]
  | cons p rest ih =>
    intro cnt
    unfold rejoinLoop
    by_cases h1 : (p.pid == selfID) = true
    · simpa [h1] using ih cnt
    · by_cases h2 : p.connectOk = true
      · by_cases h3 : 10 ≤ cnt
        · simpa [h1, h2, h3] using ih cnt
        · simpa [h1, h2, h3] using ih (cnt + 1)
      · simpa [h1, h2] using ih cnt

/-- The final `protectedCount` is the entry count plus the number of
`Protect` calls made. -/
lemma rejoinLoop_count_eq (selfID tag : GoStr) (l : List PeerInfo) :
    ∀ cnt, (rejoinLoop selfID tag l cnt).2.1 = cnt + (rejoinLoop selfID tag l cnt).1.length := by
  induction l with
  | nil => intro cnt; simp [rejoinLoop]
  | cons p rest ih =>
    intro cnt
    unfold rejoinLoop
    by_cases h1 : (p.pid == selfID) = true
    · simpa [h1] using ih cnt
    · by_cases h2 : p.connectOk = true
      · by_cases h3 : 10 ≤ cnt
        · simpa [h1, h2, h3] using ih cnt
        · have := ih (cnt + 1)
          simp [h1, h2, h3]
          omega
      · simpa [h1, h2] using ih cnt

/-- C1: one rejoin cycle protect-tags at most 10 distinct peers, and
every tag is the channel descriptor, for any discovery outcome. -/
theorem c1_rejoin_protect_cap (selfID desc : GoStr)
    (find : Except String (List PeerInfo)) :
    ((RejoinChannel selfID find desc).2.1.map Prod.fst).dedup.length ≤ 10 ∧
    ((RejoinChannel selfID find desc).2.1.all fun pr => pr.2 == desc) = true := by
  have hlen : (RejoinChannel selfID find desc).2.1.length ≤ 10 := by
    cases find with
    | error e => simp [RejoinChannel]
    | ok pis =>
      have := rejoinLoop_length_le selfID desc pis 0
      simp only [RejoinChannel]
      split <;> simpa using this
  have htag : ((RejoinChannel selfID find desc).2.1.all fun pr => pr.2 == desc) = true := by
    cases find with
    | error e => simp [RejoinChannel]
    | ok pis =>
      have := rejoinLoop_tags selfID desc pis 0
      simp only [RejoinChannel]
      split <;> simpa using this
  refine ⟨?_, htag⟩
  calc ((RejoinChannel selfID find desc).2.1.map Prod.fst).dedup.length
      ≤ ((RejoinChannel selfID find desc).2.1.map Prod.fst).length :=
        (List.dedup_sublist _).length_le
    _ = (RejoinChannel selfID find desc).2.1.length := List.length_map _ _
    _ ≤ 10 := hlen

/-- C2: with a successful discovery stream, the rejoin cycle returns the
rejoin-failure error exactly when it protected no peer, and success as
soon as at least one peer was connected and protected. -/
theorem c2_rejoin_failed_iff_zero (selfID desc : GoStr) (pis : List PeerInfo) :
    (RejoinChannel selfID (.ok pis) desc).1 =
      (if (RejoinChannel selfID (.ok pis) desc).2.1.isEmpty
       then .error "join: failed to connect to any peers for the channel"
       else .ok ()) := by
  have hc := rejoinLoop_count_eq selfID desc pis 0
  simp only [RejoinChannel]
  by_cases h0 : (rejoinLoop selfID desc pis 0).1.length = 0
  · have hcnt : ((rejoinLoop selfID desc pis 0).2.1 == 0) = true := by
      simp [hc, h0]
    have hemp : (rejoinLoop selfID desc pis 0).1.isEmpty = true := by
      simpa [List.isEmpty_iff_length_eq_zero] using h0
    simp [hcnt, hemp]
  · have hcnt : ((rejoinLoop selfID desc pis 0).2.1 == 0) = false := by
      rw [hc]
      simp only [beq_eq_false_iff_ne]
      omega
    have hemp : (rejoinLoop selfID desc pis 0).1.isEmpty = false := by
      cases hl : (rejoinLoop selfID desc pis 0).1 with
      | nil => exact absurd (by simp [hl]) h0
      | cons a t => simp
    simp [hcnt, hemp]

/-- C3: joining the same descriptor twice without a leave succeeds both
times (assuming the first succeeded); the second call changes nothing,
performs only the lock round-trip (no subscribe, no spawned pump), and
the state holds exactly one topic entry, one subscription entry and one
pump for the descriptor. -/
theorem c3_join_idempotent (e1 e2 : JoinEnv) (st : MemState) (descr : GoStr)
    (ht : descr ∉ st.topics) (hs : descr ∉ st.subs) (hp : descr ∉ st.pumps)
    (hok : (JoinChannel e1 st descr).1 = .ok ()) :
    (JoinChannel e2 (JoinChannel e1 st descr).2.1 descr).1 = .ok () ∧
    (JoinChannel e2 (JoinChannel e1 st descr).2.1 descr).2.1 =
      (JoinChannel e1 st descr).2.1 ∧
    (JoinChannel e2 (JoinChannel e1 st descr).2.1 descr).2.2 = [Ev.lock, Ev.unlock] ∧
    (JoinChannel e1 st descr).2.1.topics.count descr = 1 ∧
    (JoinChannel e1 st descr).2.1.subs.count descr = 1 ∧
    (JoinChannel e1 st descr).2.1.pumps.count descr = 1 := by
  by_cases hj : e1.joinOk = true
  case neg => exact absurd hok (by simp [JoinChannel, ht, hj])
  by_cases hsub : e1.subOk = true
  case neg => exact absurd hok (by simp [JoinChannel, joinSub, ht, hs, hj, hsub])
  have hst1 : (JoinChannel e1 st descr).2.1 =
      ⟨st.topics.insert descr, st.subs.insert descr, descr :: st.pumps⟩ := by
    simp [JoinChannel, joinSub, ht, hs, hj, hsub]
  have hmt : descr ∈ List.insert descr st.topics := List.mem_insert_self _ _
  have hms : descr ∈ List.insert descr st.subs := List.mem_insert_self _ _
  refine ⟨?_, ?_, ?_, ?_, ?_, ?_⟩
  · rw [hst1]; simp [JoinChannel, joinSub, hmt, hms]
  · rw [hst1]; simp [JoinChannel, joinSub, hmt, hms]
  · rw [hst1]; simp [JoinChannel, joinSub, hmt, hms]
  · rw [hst1]
    simp [List.insert_of_not_mem ht, List.count_eq_zero_of_not_mem ht]
  · rw [hst1]
    simp [List.insert_of_not_mem hs, List.count_eq_zero_of_not_mem hs]
  · rw [hst1]
    simp [List.count_eq_zero_of_not_mem hp]

/-- C3 witness: joining `#general` twice from the fresh state. -/
theorem c3_witness :
    (JoinChannel ⟨true, true⟩ (JoinChannel ⟨true, true⟩ emptyMemState chanGeneral).2.1
        chanGeneral).1 = .ok () ∧
    (JoinChannel ⟨true, true⟩ (JoinChannel ⟨true, true⟩ emptyMemState chanGeneral).2.1
        chanGeneral).2.1 = (JoinChannel ⟨true, true⟩ emptyMemState chanGeneral).2.1 ∧
    (JoinChannel ⟨true, true⟩ (JoinChannel ⟨true, true⟩ emptyMemState chanGeneral).2.1
        chanGeneral).2.2 = [Ev.lock, Ev.unlock] ∧
    (JoinChannel ⟨true, true⟩ emptyMemState chanGeneral).2.1.topics.count chanGeneral = 1 ∧
    (JoinChannel ⟨true, true⟩ emptyMemState chanGeneral).2.1.subs.count chanGeneral = 1 ∧
    (JoinChannel ⟨true, true⟩ emptyMemState chanGeneral).2.1.pumps.count chanGeneral = 1 :=
  c3_join_idempotent ⟨true, true⟩ ⟨true, true⟩ emptyMemState chanGeneral
    (by simp [emptyMemState]) (by simp [emptyMemState]) (by simp [emptyMemState]) rfl

/-- Membership states reachable from the fresh node state by join and
leave transitions with arbitrary overlay outcomes. -/
inductive Reachable : MemState → Prop
  | init : Reachable emptyMemState
  | join (env : JoinEnv) (st : MemState) (descr : GoStr) :
      Reachable st → Reachable (JoinChannel env st descr).2.1
  | leave (env : LeaveEnv) (st : MemState) (descr : GoStr) :
      Reachable st → Reachable (LeaveChannel env st descr).2.1

/-- Invariant of reachable states: both key lists are duplicate-free and
have the same members. -/
lemma reachable_inv (st : MemState) (h : Reachable st) :
    st.topics.Nodup ∧ st.subs.Nodup ∧ ∀ d, (d ∈ st.topics ↔ d ∈ st.subs) := by
  induction h with
  | init => simp [emptyMemState]
  | join env st descr hr ih =>
    obtain ⟨hnt, hns, hiff⟩ := ih
    by_cases h1 : descr ∈ st.topics
    · have h2 : descr ∈ st.subs := (hiff descr).mp h1
      simpa [JoinChannel, joinSub, h1, h2] using ⟨hnt, hns, hiff⟩
    · have h2 : descr ∉ st.subs := fun hx => h1 ((hiff descr).mpr hx)
      by_cases hj : env.joinOk = true
      · by_cases hsub : env.subOk = true
        · have hres : (JoinChannel env st descr).2.1 =
              ⟨st.topics.insert descr, st.subs.insert descr, descr :: st.pumps⟩ := by
            simp [JoinChannel, joinSub, h1, h2, hj, hsub]
          rw [hres]
          refine ⟨?_, ?_, ?_⟩
          · show (st.topics.insert descr).Nodup
            rw [List.insert_of_not_mem h1]
            exact List.nodup_cons.mpr ⟨h1, hnt⟩
          · show (st.subs.insert descr).Nodup
            rw [List.insert_of_not_mem h2]
            exact List.nodup_cons.mpr ⟨h2, hns⟩
          intro d
          show d ∈ st.topics.insert descr ↔ d ∈ st.subs.insert descr
          simp only [List.mem_insert_iff]
          exact or_congr_right (hiff d)
        · simpa [JoinChannel, joinSub, h1, h2, hj, hsub] using ⟨hnt, hns, hiff⟩
      · simpa [JoinChannel, joinSub, h1, hj] using ⟨hnt, hns, hiff⟩
  | leave env st descr hr ih =>
    obtain ⟨hnt, hns, hiff⟩ := ih
    by_cases h1 : descr ∈ st.topics
    · have h2 : descr ∈ st.subs := (hiff descr).mp h1
      have hres : (LeaveChannel env st descr).2.1 =
          ⟨st.topics.erase descr, st.subs.erase descr, st.pumps.erase descr⟩ := by
        by_cases hclose : env.closeOk = true <;>
          simp [LeaveChannel, h1, h2, hclose]
      rw [hres]
      refine ⟨?_, ?_, ?_⟩
      · show (st.topics.erase descr).Nodup
        exact (st.topics.erase_sublist descr).nodup hnt
      · show (st.subs.erase descr).Nodup
        exact (st.subs.erase_sublist descr).nodup hns
      intro d
      show d ∈ st.topics.erase descr ↔ d ∈ st.subs.erase descr
      rw [hnt.mem_erase_iff, hns.mem_erase_iff]
      exact and_congr_right fun _ => hiff d
    · simpa [LeaveChannel, h1] using ⟨hnt, hns, hiff⟩

/-- C9: in every reachable state the topics and subs maps have the same
key set; a failed `JoinChannel` changes nothing; `LeaveChannel` either
changes nothing or deletes the descriptor from both maps; and `IsJoined`
(reading subs) agrees with `Post`'s membership check (reading topics). -/
theorem c9_topics_subs_consistent (st : MemState) (h : Reachable st) :
    (∀ d, d ∈ st.topics ↔ d ∈ st.subs) ∧
    (∀ env descr e, (JoinChannel env st descr).1 = .error e →
       (JoinChannel env st descr).2.1 = st) ∧
    (∀ env descr, (LeaveChannel env st descr).2.1 = st ∨
       ((LeaveChannel env st descr).2.1.topics = st.topics.erase descr ∧
        (LeaveChannel env st descr).2.1.subs = st.subs.erase descr)) ∧
    (∀ d, IsJoined st d = true ↔ d ∈ st.topics) := by
  obtain ⟨hnt, hns, hiff⟩ := reachable_inv st h
  refine ⟨hiff, ?_, ?_, ?_⟩
  · intro env descr e herr
    by_cases h1 : descr ∈ st.topics
    · have h2 : descr ∈ st.subs := (hiff descr).mp h1
      exact absurd herr (by simp [JoinChannel, joinSub, h1, h2])
    · have h2 : descr ∉ st.subs := fun hx => h1 ((hiff descr).mpr hx)
      by_cases hj : env.joinOk = true
      · by_cases hsub : env.subOk = true
        · exact absurd herr (by simp [JoinChannel, joinSub, h1, h2, hj, hsub])
        · simp [JoinChannel, joinSub, h1, h2, hj, hsub]
      · simp [JoinChannel, joinSub, h1, hj]
  · intro env descr
    by_cases h1 : descr ∈ st.topics
    · have h2 : descr ∈ st.subs := (hiff descr).mp h1
      right
      by_cases hclose : env.closeOk = true <;>
        exact ⟨by simp [LeaveChannel, h1, h2, hclose], by simp [LeaveChannel, h1, h2, hclose]⟩
    · left
      simp [LeaveChannel, h1]
  · intro d
    rw [show (IsJoined st d = true) = (d ∈ st.subs) from by simp [IsJoined]]
    exact (hiff d).symm

/-- C9 witness: the agreement instantiated at the fresh state. -/
theorem c9_witness :
    IsJoined emptyMemState chanGeneral = true ↔ chanGeneral ∈ emptyMemState.topics :=
  (c9_topics_subs_consistent emptyMemState Reachable.init).2.2.2 chanGeneral

/-- The protect loop performs no lock transitions. -/
lemma rejoinLoop_no_lock (selfID tag : GoStr) (l : List PeerInfo) :
    ∀ cnt, Ev.lock ∉ (rejoinLoop selfID tag l cnt).2.2 := by
  induction l with
  | nil => intro cnt; simp [rejoinLoop]
  | cons p rest ih =>
    intro cnt
    unfold rejoinLoop
    by_cases h1 : (p.pid == selfID) = true
    · simpa [h1] using ih cnt
    · by_cases h2 : p.connectOk = true
      · by_cases h3 : 10 ≤ cnt
        · simpa [h1, h2, h3] using ih cnt
        · simpa [h1, h2, h3] using ih (cnt + 1)
      · simpa [h1, h2] using ih cnt

/-- A rejoin cycle performs no lock transitions at all. -/
lemma rejoinChannel_no_lock (selfID : GoStr) (find : Except String (List PeerInfo))
    (desc : GoStr) : Ev.lock ∉ (RejoinChannel selfID find desc).2.2 := by
  cases find with
  | error e => simp [RejoinChannel]
  | ok pis =>
    have := rejoinLoop_no_lock selfID desc pis 0
    simp only [RejoinChannel]
    split <;> simpa using this

/-- A trace that never acquires the lock performs no network call while
holding it. -/
lemma lockedNet_zero_of_no_lock (tr : List Ev) (h : Ev.lock ∉ tr) :
    lockedNet 0 tr = false := by
  induction tr with
  | nil => rfl
  | cons e r ih =>
    have he : e ≠ Ev.lock := fun hx => h (hx ▸ List.mem_cons_self _ _)
    have hr : Ev.lock ∉ r := fun hx => h (List.mem_cons_of_mem _ hx)
    cases e <;> first
      | exact absurd rfl he
      | simpa [lockedNet, netEv] using ih hr

/-- Connection-manager unprotect calls are transparent to the lock/net
scan. -/
lemma lockedNet_replicate_cmUnprotect (n d : Nat) (rest : List Ev) :
    lockedNet d (List.replicate n Ev.cmUnprotect ++ rest) = lockedNet d rest := by
  induction n with
  | zero => rfl
  | succ k ih => simpa [List.replicate_succ, lockedNet, netEv] using ih

/-- C8 counterexample: the claim says no execution of the membership
operations performs a network call while holding the lock, but a fresh
`JoinChannel` performs the overlay topic join (and subscribe) inside its
critical section. -/
theorem c8_counterexample :
    heldAcrossNet (JoinChannel ⟨true, true⟩ emptyMemState chanGeneral).2.2 = true := by
  rfl

/-- C8 (amended): `Post`, `RejoinAll` and `AnnounceAll` hold the lock
only for map reads (never across a network call, with `Post`'s publish
spawned outside the critical section), but `JoinChannel` holds the lock
across the overlay topic-join/subscribe whenever the descriptor is
fresh, and `LeaveChannel` holds it across the topic close whenever a
record exists. -/
theorem c8_lock_discipline_amended
    (selfID : GoStr) (find : GoStr → Except String (List PeerInfo))
    (aok : GoStr → Bool) (st : MemState) (env : PostEnv) (d m : GoStr)
    (je : JoinEnv) (le : LeaveEnv) (descr : GoStr) :
    heldAcrossNet (RejoinAll selfID find st).2 = false ∧
    heldAcrossNet (AnnounceAll aok st).2 = false ∧
    heldAcrossNet (Post env st d m).2.1 = false ∧
    (descr ∉ st.topics → je.joinOk = true →
      heldAcrossNet (JoinChannel je st descr).2.2 = true) ∧
    (descr ∈ st.topics → descr ∈ st.subs →
      heldAcrossNet (LeaveChannel le st descr).2.2 = true) := by
  refine ⟨?_, ?_, ?_, ?_, ?_⟩
  · show lockedNet 0
      ((st.topics.map fun dd => (RejoinChannel selfID (find dd) dd).2.2).flatten) = false
    apply lockedNet_zero_of_no_lock
    intro hmem
    rw [List.mem_flatten] at hmem
    obtain ⟨l, hl, hevl⟩ := hmem
    rw [List.mem_map] at hl
    obtain ⟨dd, hdd, rfl⟩ := hl
    exact rejoinChannel_no_lock selfID (find dd) dd hevl
  · show lockedNet 0
      ((st.topics.map fun dd => (AnnounceChannel (aok dd) dd).2).flatten) = false
    apply lockedNet_zero_of_no_lock
    intro hmem
    rw [List.mem_flatten] at hmem
    obtain ⟨l, hl, hevl⟩ := hmem
    rw [List.mem_map] at hl
    obtain ⟨dd, hdd, rfl⟩ := hl
    simp [AnnounceChannel] at hevl
  · by_cases hc : hasPre d chanPre = true
    · by_cases hm : d ∈ st.topics
      · simp [Post, hc, hm, heldAcrossNet, lockedNet, netEv]
      · simp [Post, hc, hm, heldAcrossNet, lockedNet, netEv]
    · by_cases hd : hasPre d dmPre = true
      · simp [Post, hc, hd, heldAcrossNet, lockedNet, netEv]
      · simp [Post, hc, hd, heldAcrossNet, lockedNet, netEv]
  · intro hfresh hjok
    by_cases hsub1 : descr ∈ st.subs
    · simp [JoinChannel, joinSub, hfresh, hjok, hsub1, heldAcrossNet, lockedNet, netEv]
    · by_cases hsub2 : je.subOk = true
      · simp [JoinChannel, joinSub, hfresh, hjok, hsub1, hsub2, heldAcrossNet,
          lockedNet, netEv]
      · simp [JoinChannel, joinSub, hfresh, hjok, hsub1, hsub2, heldAcrossNet,
          lockedNet, netEv]
  · intro h1 h2
    have htr : (LeaveChannel le st descr).2.2 =
        Ev.lock :: Ev.listPeers ::
          (List.replicate le.topicPeers Ev.cmUnprotect ++
            [Ev.subCancel, Ev.netCloseTopic, Ev.unlock]) := by
      by_cases hclose : le.closeOk = true <;> simp [LeaveChannel, h1, h2, hclose]
    show lockedNet 0 ((LeaveChannel le st descr).2.2) = true
    rw [htr]
    show lockedNet 1 (List.replicate le.topicPeers Ev.cmUnprotect ++
      [Ev.subCancel, Ev.netCloseTopic, Ev.unlock]) = true
    rw [lockedNet_replicate_cmUnprotect]
    rfl

/-- C8 witness for the amended statement: concrete instances of the
lock-free `RejoinAll` and of `JoinChannel`'s in-lock topic join. -/
theorem c8_amended_witness :
    heldAcrossNet (RejoinAll [] (fun _ => .ok []) stOne).2 = false ∧
    heldAcrossNet (JoinChannel ⟨true, true⟩ stOne (dmPre ++ "x".toList)).2.2 = true := by
  have h := c8_lock_discipline_amended [] (fun _ => .ok []) (fun _ => true) stOne
    ⟨0, true⟩ [] [] ⟨true, true⟩ ⟨0, true⟩ (dmPre ++ "x".toList)
  exact ⟨h.1, h.2.2.2.1 (by decide) rfl⟩

end InfChat
